import Mathlib

/-!
Shallow embedding of the SimpleStatsImporter pipeline
(src/simple/stats/importer.py): a linear CSV import pipeline that drops
ignored columns, renames positional columns, resolves entity references
through an external service, optionally unpivots wide variable columns
into long format, and writes an observations table together with a
debug-resolve audit table.

Tables are modelled as named columns plus rows of cells; a cell is an
optional string, with none standing for a missing value (NaN).  The
external resolver is a parameter (a function from the candidate list to
an association list), and the implementation-defined enumeration order
of a Python set is a parameter as well, constrained by ValidEnum.
-/

/-- A table cell; none models a missing value (NaN). -/
abbrev Cell := Option String

/-- An in-memory data frame: named columns and rows of cells. -/
structure Table where
  columns : List String
  rows : List (List Cell)
deriving Repr, DecidableEq

/-- Modelled from the spec: the override marker prefixing pre-resolved entity
references (the configuration constant DCID_OVERRIDE_PREFIX lives outside
src/); the spec scenario fixes it to "dcid:". -/
def overrideMarker : String := "dcid:"

/-- Modelled from the spec: the sentinel identifier carried by unresolved
names in the audit table (DEBUG_UNRESOLVED_DCID lives outside src/); the spec
scenario shows it as UNRESOLVED. -/
def unresolvedSentinel : String := "UNRESOLVED"

/-- Modelled from the spec: the fixed browser base URL (DC_BROWSER lives
outside src/); its concrete value is irrelevant to the claims. -/
def dcBrowser : String := "https://datacommons.org/browser"

/-- Modelled from the spec: fixed semantic column name for the entity
identifier column. -/
def columnDcid : String := "dcid"

/-- Modelled from the spec: fixed semantic column name for the date column. -/
def columnDate : String := "date"

/-- Modelled from the spec: fixed column name for the variable column of the
long table. -/
def columnVariable : String := "variable"

/-- Modelled from the spec: fixed column name for the value column of the
long table. -/
def columnValue : String := "value"

/-- Modelled from the spec: audit table column names. -/
def debugColName : String := "name"

/-- Modelled from the spec: audit table column names. -/
def debugColDcid : String := "dcid"

/-- Modelled from the spec: audit table column names. -/
def debugColLink : String := "link"

/-- Modelled from the spec: fixed observations output file name. -/
def observationsFileName : String := "observations.csv"

/-- Modelled from the spec: fixed debug-resolve output file name. -/
def debugResolveFileName : String := "debug_resolve.csv"

/-- Boolean string-list membership (Python "in"). -/
def memStr (s : String) : List String → Bool
  | [] => false
  | a :: l => if a = s then true else memStr s l

/-- Association-list lookup (Python dict access / dict.get). -/
def alookup (k : String) : List (String × String) → Option String
  | [] => none
  | (a, b) :: l => if a = k then some b else alookup k l

/-- The cell in column 0 of a row (df.iloc[:, 0] for one row). -/
def cell0 (r : List Cell) : Cell := r.headD none

/-- The entity column as strings; none when some cell is missing, in which
case the Python code would crash on entity.startswith. -/
def colStrings : List (List Cell) → Option (List String)
  | [] => some []
  | r :: rs =>
    match cell0 r, colStrings rs with
    | some v, some vs => some (v :: vs)
    | _, _ => none

/-- Character-list prefix test (kernel-reducible form of str.startswith). -/
def charsStart (p l : List Char) : Bool :=
  match p, l with
  | [], _ => true
  | _ :: _, [] => false
  | a :: ps, b :: ls => if a = b then charsStart ps ls else false

/-- entity.startswith(DCID_OVERRIDE_PREFIX). -/
def hasMarker (e : String) : Bool :=
  charsStart overrideMarker.data e.data

/-- Drop leading whitespace from a character list. -/
def trimLeftChars : List Char → List Char
  | [] => []
  | c :: l => if c.isWhitespace then trimLeftChars l else c :: l

/-- str.strip(): drop whitespace on both ends. -/
def trimChars (l : List Char) : List Char :=
  (trimLeftChars (trimLeftChars l).reverse).reverse

/-- entity[len(DCID_OVERRIDE_PREFIX):].strip() from remove_pre_resolved. -/
def stripOverride (e : String) : String :=
  String.mk (trimChars (e.data.drop overrideMarker.data.length))

/-- One step of remove_pre_resolved on the accumulating dict: a prefixed
entity is inserted (keyed by the full reference, valued by the stripped and
trimmed remainder) unless already present. -/
def preStep (acc : List (String × String)) (e : String) : List (String × String) :=
  if hasMarker e then
    if (alookup e acc).isSome then acc else acc ++ [(e, stripOverride e)]
  else acc

/-- The pre_resolved_entities dict built by remove_pre_resolved while
filtering the column: keys in first-insertion order. -/
def preResolvedOf (col : List String) : List (String × String) :=
  col.foldl preStep []

/-- The candidate names sent to the resolver: the column values that do not
carry the override marker, in row order and with duplicates. -/
def candidatesOf (col : List String) : List String :=
  col.filter (fun e => ! hasMarker e)

/-- The candidate occurrences absent from the resolver mapping; the Python
set difference set(entities) - set(dcids.keys()) holds exactly the distinct
elements of this list. -/
def unresolvedBase (col : List String) (dcids : List (String × String)) : List String :=
  (candidatesOf col).filter (fun e => (alookup e dcids).isNone)

/-- pandas Series.replace with a dict, on one cell. -/
def replaceVal (m : List (String × String)) (c : Cell) : Cell :=
  match c with
  | none => none
  | some s => some ((alookup s m).getD s)

/-- The two successive in-place replaces on column 0: first the resolver
mapping, then the pre-resolved mapping. -/
def rwRow (dcids pre : List (String × String)) (r : List Cell) : List Cell :=
  let r1 := r.set 0 (replaceVal dcids (cell0 r))
  r1.set 0 (replaceVal pre (cell0 r1))

/-- The row survives the unresolved drop: df.iloc[:, 0].isin(unresolved_list)
is false (a missing cell is never "in" a list of strings). -/
def keepRow (unres : List String) (r : List Cell) : Bool :=
  match cell0 r with
  | none => true
  | some s => ! memStr s unres

/-- The browser link attached to an identifier in the audit table. -/
def debugLink (d : String) : String :=
  if d = unresolvedSentinel then "" else dcBrowser ++ "/" ++ d

/-- _create_debug_resolve_dataframe: unresolved names first with the sentinel
identifier, then pre-resolved entries, then resolved entries; links derived
per identifier. -/
def createDebugResolveTable (unres : List String) (pre res : List (String × String)) : Table :=
  let names := unres ++ pre.map Prod.fst ++ res.map Prod.fst
  let ids := unres.map (fun _ => unresolvedSentinel) ++ pre.map Prod.snd ++ res.map Prod.snd
  let links := ids.map debugLink
  { columns := [debugColName, debugColDcid, debugColLink],
    rows := (names.zip (ids.zip links)).map (fun p => [some p.1, some p.2.1, some p.2.2]) }

/-- The state produced by _resolve_entities: the rewritten and filtered table
plus the three classification maps and the audit table. -/
structure ResolveResult where
  table : Table
  pre : List (String × String)
  res : List (String × String)
  unres : List String
  audit : Table
deriving Repr, DecidableEq

/-- _resolve_entities.  enumSet models the implementation-defined enumeration
list(set(...)) of the unresolved set; resolver models the external
dc.resolve_entities call (the entity type is absorbed into the closure).
The source removes the marked rows through their index labels
(df.drop(df[mask].index)); this embedding carries no index labels and filters
rows by their rewritten entity value instead.  The two coincide whenever row
labels are distinct (any single-file input); with duplicate labels from a
multi-file directory concatenation the source additionally drops rows that
merely share a label with a dropped row, so the embedded drop removes a
subset of the rows the source removes.  The theorems below conclude either
non-survival (which the source's wider drop only reinforces) or concern
single-table inputs, where the two drops agree. -/
def resolveEntities (enumSet : List String → List String)
    (resolver : List String → List (String × String)) (t : Table) :
    Except String ResolveResult :=
  match colStrings t.rows with
  | none => .error "entity column holds a non-string value"
  | some col =>
    let pre := preResolvedOf col
    let entities := candidatesOf col
    let dcids := resolver entities
    let unresL := enumSet (unresolvedBase col dcids)
    let rows1 := t.rows.map (rwRow dcids pre)
    let rows2 := if unresL.isEmpty then rows1 else rows1.filter (keepRow unresL)
    .ok { table := { columns := t.columns, rows := rows2 },
          pre := pre, res := dcids, unres := unresL,
          audit := createDebugResolveTable unresL pre dcids }

/-- _rename_columns: positional rename of column 0 (and column 1 when the
unpivot policy is enabled). -/
def renameColumns (unpivot : Bool) (t : Table) : Table :=
  let cs := t.columns.set 0 columnDcid
  { t with columns := if unpivot then cs.set 1 columnDate else cs }

/-- Remove from a row the cells that sit under an ignored column name. -/
def dropColsRow (cols ignore : List String) (r : List Cell) : List Cell :=
  ((cols.zip r).filter (fun p => ! memStr p.1 ignore)).map Prod.snd

/-- _drop_ignored_columns: a no-op on an empty list; otherwise pandas drop,
which raises when any requested label is absent. -/
def dropIgnoredColumns (ignore : List String) (t : Table) : Except String Table :=
  if ignore.isEmpty then .ok t
  else if ignore.all (fun c => memStr c t.columns) then
    .ok { columns := t.columns.filter (fun c => ! memStr c ignore),
          rows := t.rows.map (dropColsRow t.columns ignore) }
  else .error "ignored column not found"

/-- Index of the first occurrence of a name in the column list (length when
absent). -/
def indexOfStr (s : String) : List String → Nat
  | [] => 0
  | a :: l => if a = s then 0 else indexOfStr s l + 1

/-- pandas melt with id_vars [dcid, date]: every other column becomes
variable/value rows, stacked column by column. -/
def meltTable (t : Table) : Table :=
  let i0 := indexOfStr columnDcid t.columns
  let i1 := indexOfStr columnDate t.columns
  let vcs := t.columns.enum.filter (fun p => ! memStr p.2 [columnDcid, columnDate])
  { columns := [columnDcid, columnDate, columnVariable, columnValue],
    rows := (vcs.map (fun p =>
      t.rows.map (fun r => [r.getD i0 none, r.getD i1 none, some p.2, r.getD p.1 none]))).flatten }

/-- pandas dropna: drop every row holding a missing value in any column. -/
def dropna (t : Table) : Table :=
  { t with rows := t.rows.filter (fun r => r.all (fun c => c.isSome)) }

/-- _unpivot_variables: melt then dropna. -/
def unpivotVariables (t : Table) : Table := dropna (meltTable t)

/-- _reorder_columns: reindex to the fixed column order
[dcid, variable, date, value]. -/
def reorderColumns (t : Table) : Table :=
  let names := [columnDcid, columnVariable, columnDate, columnValue]
  { columns := names,
    rows := t.rows.map (fun r => names.map (fun n => r.getD (indexOfStr n t.columns) none)) }

/-- The in-memory stages of do_import after reading: drop ignored columns,
rename positional columns, resolve entities, optionally unpivot and reorder;
yields the observations table and the audit table. -/
def runStages (unpivot : Bool) (ignore : List String)
    (enumSet : List String → List String)
    (resolver : List String → List (String × String)) (t : Table) :
    Except String (Table × Table) :=
  match dropIgnoredColumns ignore t with
  | .error e => .error e
  | .ok t1 =>
    match resolveEntities enumSet resolver (renameColumns unpivot t1) with
    | .error e => .error e
    | .ok r =>
      .ok (if unpivot then reorderColumns (unpivotVariables r.table) else r.table, r.audit)

/-- Whether an Except is an error. -/
def isErr {α : Type} (e : Except String α) : Bool :=
  match e with
  | .error _ => true
  | .ok _ => false

/-- do_import including _write_csvs: the observations file is written first,
then the debug-resolve file (the audit table always exists after
_resolve_entities).  writeOk models whether an individual file write
succeeds; the returned list holds the files actually written. -/
def doImport (unpivot : Bool) (ignore : List String)
    (enumSet : List String → List String)
    (resolver : List String → List (String × String))
    (writeOk : String → Bool) (t : Table) :
    List String × Except String Unit :=
  match runStages unpivot ignore enumSet resolver t with
  | .error e => ([], .error e)
  | .ok _pair =>
    if writeOk observationsFileName then
      if writeOk debugResolveFileName then
        ([observationsFileName, debugResolveFileName], .ok ())
      else ([observationsFileName], .error "could not write debug-resolve file")
    else ([], .error "could not write observations file")

instance {ε α : Type} [DecidableEq ε] [DecidableEq α] : DecidableEq (Except ε α) := fun a b =>
  match a, b with
  | .error x, .error y =>
    if h : x = y then .isTrue (by rw [h]) else .isFalse (fun he => by cases he; exact h rfl)
  | .ok x, .ok y =>
    if h : x = y then .isTrue (by rw [h]) else .isFalse (fun he => by cases he; exact h rfl)
  | .error _, .ok _ => .isFalse (fun he => by cases he)
  | .ok _, .error _ => .isFalse (fun he => by cases he)

/-- A valid model of list(set(xs)): some duplicate-free enumeration of the
distinct elements of xs.  Python fixes no particular order (string hashing
is randomized across interpreter runs). -/
def ValidEnum (f : List String → List String) : Prop :=
  ∀ xs : List String, (f xs).Nodup ∧ ∀ a : String, a ∈ f xs ↔ a ∈ xs

/-- One concrete valid enumeration. -/
def dedupEnum (xs : List String) : List String := xs.dedup

/-- Another concrete valid enumeration, differing from dedupEnum in order. -/
def revDedupEnum (xs : List String) : List String := xs.dedup.reverse

theorem memStr_iff (s : String) (l : List String) : memStr s l = true ↔ s ∈ l := by
  induction l with
  | nil => simp [memStr]
  | cons a l ih =>
    simp only [memStr]
    by_cases h : a = s
    · subst h; simp
    · rw [if_neg h, ih, List.mem_cons]
      constructor
      · exact Or.inr
      · rintro (rfl | hs)
        · exact absurd rfl h
        · exact hs

theorem alookup_mem {k v : String} {m : List (String × String)}
    (h : alookup k m = some v) : (k, v) ∈ m := by
  induction m with
  | nil => simp [alookup] at h
  | cons p m ih =>
    obtain ⟨a, b⟩ := p
    simp only [alookup] at h
    by_cases ha : a = k
    · rw [if_pos ha] at h
      obtain rfl : b = v := by injection h
      subst ha
      exact List.mem_cons_self _ _
    · rw [if_neg ha] at h
      exact List.mem_cons_of_mem _ (ih h)

theorem alookup_eq_none {k : String} {m : List (String × String)} :
    alookup k m = none ↔ k ∉ m.map Prod.fst := by
  induction m with
  | nil => simp [alookup]
  | cons p m ih =>
    obtain ⟨a, b⟩ := p
    simp only [alookup, List.map_cons, List.mem_cons]
    by_cases ha : a = k
    · subst ha; simp
    · rw [if_neg ha, ih]
      constructor
      · rintro hnot (rfl | h2)
        · exact ha rfl
        · exact hnot h2
      · intro hnot h2
        exact hnot (Or.inr h2)

theorem alookup_append_left {k v : String} {l1 : List (String × String)}
    (l2 : List (String × String)) (h : alookup k l1 = some v) :
    alookup k (l1 ++ l2) = some v := by
  induction l1 with
  | nil => simp [alookup] at h
  | cons p l1 ih =>
    obtain ⟨a, b⟩ := p
    simp only [alookup, List.cons_append] at h ⊢
    by_cases ha : a = k
    · rwa [if_pos ha] at h ⊢
    · rw [if_neg ha] at h ⊢
      exact ih h

theorem alookup_append_right {k : String} {l1 : List (String × String)}
    (l2 : List (String × String)) (h : alookup k l1 = none) :
    alookup k (l1 ++ l2) = alookup k l2 := by
  induction l1 with
  | nil => simp
  | cons p l1 ih =>
    obtain ⟨a, b⟩ := p
    simp only [alookup, List.cons_append] at h ⊢
    by_cases ha : a = k
    · rw [if_pos ha] at h; cases h
    · rw [if_neg ha] at h ⊢
      exact ih h

theorem colStrings_mem {rows : List (List Cell)} {col : List String}
    (hc : colStrings rows = some col) {r : List Cell} (hr : r ∈ rows)
    {v : String} (hv : cell0 r = some v) : v ∈ col := by
  induction rows generalizing col with
  | nil => cases hr
  | cons r0 rs ih =>
    cases h0 : cell0 r0 with
    | none =>
      simp only [colStrings, h0] at hc
      cases hc
    | some v0 =>
      cases hrs : colStrings rs with
      | none =>
        simp only [colStrings, h0, hrs] at hc
        cases hc
      | some vs =>
        simp only [colStrings, h0, hrs] at hc
        obtain rfl : v0 :: vs = col := by injection hc
        rcases List.mem_cons.mp hr with rfl | hr2
        · rw [h0] at hv
          obtain rfl : v0 = v := by injection hv
          exact List.mem_cons_self _ _
        · exact List.mem_cons_of_mem _ (ih hrs hr2)

theorem mem_candidates {e : String} {col : List String} :
    e ∈ candidatesOf col ↔ e ∈ col ∧ hasMarker e = false := by
  simp [candidatesOf, List.mem_filter]

theorem mem_unresolvedBase {e : String} {col : List String}
    {dcids : List (String × String)} :
    e ∈ unresolvedBase col dcids ↔ e ∈ candidatesOf col ∧ alookup e dcids = none := by
  simp [unresolvedBase, List.mem_filter, Option.isNone_iff_eq_none]

theorem foldl_preStep_spec (col : List String) (acc : List (String × String))
    (hacc : ∀ kv ∈ acc, hasMarker kv.1 = true ∧ kv.2 = stripOverride kv.1) :
    ∀ kv ∈ col.foldl preStep acc, hasMarker kv.1 = true ∧ kv.2 = stripOverride kv.1 := by
  induction col generalizing acc with
  | nil => simpa using hacc
  | cons e col ih =>
    rw [List.foldl_cons]
    refine ih (preStep acc e) ?_
    intro kv hkv
    unfold preStep at hkv
    by_cases hm : hasMarker e = true
    · rw [if_pos hm] at hkv
      by_cases hs : (alookup e acc).isSome = true
      · rw [if_pos hs] at hkv; exact hacc kv hkv
      · rw [if_neg hs] at hkv
        rcases List.mem_append.mp hkv with h | h
        · exact hacc kv h
        · obtain rfl : kv = (e, stripOverride e) := by simpa using h
          exact ⟨hm, rfl⟩
    · rw [if_neg hm] at hkv; exact hacc kv hkv

theorem preResolved_spec (col : List String) :
    ∀ kv ∈ preResolvedOf col, hasMarker kv.1 = true ∧ kv.2 = stripOverride kv.1 :=
  foldl_preStep_spec col [] (by simp)

theorem foldl_preStep_lookup_some (col : List String) {acc : List (String × String)}
    {k v : String} (h : alookup k acc = some v) :
    alookup k (col.foldl preStep acc) = some v := by
  induction col generalizing acc with
  | nil => simpa using h
  | cons e col ih =>
    rw [List.foldl_cons]
    refine ih ?_
    unfold preStep
    by_cases hm : hasMarker e = true
    · rw [if_pos hm]
      by_cases hs : (alookup e acc).isSome = true
      · rwa [if_pos hs]
      · rw [if_neg hs]
        exact alookup_append_left _ h
    · rwa [if_neg hm]

theorem foldl_preStep_isSome (col : List String) (acc : List (String × String))
    {p : String} (hp : hasMarker p = true) (hmem : p ∈ col) :
    (alookup p (col.foldl preStep acc)).isSome = true := by
  induction col generalizing acc with
  | nil => cases hmem
  | cons e col ih =>
    rw [List.foldl_cons]
    rcases List.mem_cons.mp hmem with rfl | h2
    · have hv : ∃ v, alookup p (preStep acc p) = some v := by
        unfold preStep
        rw [if_pos hp]
        cases halo : alookup p acc with
        | some v =>
          rw [if_pos (show (Option.some v).isSome = true from rfl)]
          exact ⟨v, halo⟩
        | none =>
          rw [if_neg (show ¬ (Option.none : Option String).isSome = true by simp)]
          refine ⟨stripOverride p, ?_⟩
          rw [alookup_append_right _ halo]
          simp [alookup]
      obtain ⟨v, hv⟩ := hv
      rw [foldl_preStep_lookup_some col hv]
      rfl
    · exact ih _ h2

theorem preResolved_lookup {p : String} {col : List String}
    (hp : hasMarker p = true) (hmem : p ∈ col) :
    alookup p (preResolvedOf col) = some (stripOverride p) := by
  have h1 := foldl_preStep_isSome col [] hp hmem
  cases h : alookup p (preResolvedOf col) with
  | none =>
    unfold preResolvedOf at h
    rw [h] at h1
    cases h1
  | some v =>
    exact congrArg some (preResolved_spec col (p, v) (alookup_mem h)).2

theorem preResolved_notMarker {k : String} {col : List String}
    (hk : hasMarker k = false) : alookup k (preResolvedOf col) = none := by
  cases h : alookup k (preResolvedOf col) with
  | none => rfl
  | some v =>
    have := (preResolved_spec col (k, v) (alookup_mem h)).1
    rw [hk] at this
    cases this

theorem foldl_preStep_keys_nodup (col : List String) (acc : List (String × String))
    (h : (acc.map Prod.fst).Nodup) : ((col.foldl preStep acc).map Prod.fst).Nodup := by
  induction col generalizing acc with
  | nil => simpa using h
  | cons e col ih =>
    rw [List.foldl_cons]
    refine ih _ ?_
    unfold preStep
    by_cases hm : hasMarker e = true
    · rw [if_pos hm]
      by_cases hs : (alookup e acc).isSome = true
      · rwa [if_pos hs]
      · rw [if_neg hs]
        have hnone : alookup e acc = none := by
          cases halo : alookup e acc with
          | none => rfl
          | some v => rw [halo] at hs; simp at hs
        have hnot : e ∉ acc.map Prod.fst := alookup_eq_none.mp hnone
        simp [List.nodup_append, h, hnot]
    · rwa [if_neg hm]

theorem preResolved_keys_nodup (col : List String) :
    ((preResolvedOf col).map Prod.fst).Nodup :=
  foldl_preStep_keys_nodup col [] (by simp)

theorem validEnum_dedup : ValidEnum dedupEnum :=
  fun xs => ⟨List.nodup_dedup xs, fun _ => List.mem_dedup⟩

theorem validEnum_revDedup : ValidEnum revDedupEnum :=
  fun xs =>
    ⟨List.nodup_reverse.mpr (List.nodup_dedup xs),
     fun a => by simp [revDedupEnum, List.mem_reverse, List.mem_dedup]⟩

theorem validEnum_singleton {f : List String → List String} (hv : ValidEnum f)
    (s : String) : f [s] = [s] := by
  obtain ⟨hnd, hmem⟩ := hv [s]
  cases hl : f [s] with
  | nil =>
    exfalso
    have hs : s ∈ f [s] := (hmem s).mpr (by simp)
    rw [hl] at hs
    cases hs
  | cons a l =>
    have ha : a = s := by
      have := (hmem a).mp (by rw [hl]; exact List.mem_cons_self _ _)
      simpa using this
    subst ha
    cases l with
    | nil => rfl
    | cons b l2 =>
      exfalso
      have hb : b = a := by
        have := (hmem b).mp (by rw [hl]; exact List.mem_cons_of_mem _ (List.mem_cons_self _ _))
        simpa using this
      subst hb
      rw [hl] at hnd
      simp at hnd

theorem resolveEntities_ok (enumSet : List String → List String)
    (resolver : List String → List (String × String)) (t : Table)
    (col : List String) (hc : colStrings t.rows = some col) :
    resolveEntities enumSet resolver t =
      .ok { table :=
              { columns := t.columns,
                rows :=
                  if (enumSet (unresolvedBase col (resolver (candidatesOf col)))).isEmpty then
                    t.rows.map (rwRow (resolver (candidatesOf col)) (preResolvedOf col))
                  else
                    (t.rows.map (rwRow (resolver (candidatesOf col)) (preResolvedOf col))).filter
                      (keepRow (enumSet (unresolvedBase col (resolver (candidatesOf col))))) },
            pre := preResolvedOf col,
            res := resolver (candidatesOf col),
            unres := enumSet (unresolvedBase col (resolver (candidatesOf col))),
            audit := createDebugResolveTable
              (enumSet (unresolvedBase col (resolver (candidatesOf col))))
              (preResolvedOf col) (resolver (candidatesOf col)) } := by
  unfold resolveEntities
  rw [hc]

theorem rwRow_cons (dcids pre : List (String × String)) (c : Cell) (rest : List Cell) :
    rwRow dcids pre (c :: rest) = replaceVal pre (replaceVal dcids c) :: rest := rfl

theorem keepRow_some {unres : List String} {r : List Cell} {s : String}
    (h : cell0 r = some s) : keepRow unres r = ! memStr s unres := by
  unfold keepRow
  rw [h]

theorem unres_rows_dropped {enumSet : List String → List String}
    {resolver : List String → List (String × String)} {t : Table} {col : List String}
    (hc : colStrings t.rows = some col) {out : ResolveResult}
    (hout : resolveEntities enumSet resolver t = .ok out)
    {u : String} (hu : u ∈ out.unres) :
    ∀ q ∈ out.table.rows, cell0 q ≠ some u := by
  rw [resolveEntities_ok enumSet resolver t col hc] at hout
  injection hout with h
  subst h
  intro q hq hcq
  simp only at hq hu
  have hne : (enumSet (unresolvedBase col (resolver (candidatesOf col)))).isEmpty = false := by
    cases hL : enumSet (unresolvedBase col (resolver (candidatesOf col))) with
    | nil => rw [hL] at hu; cases hu
    | cons a l => rfl
  rw [hne] at hq
  simp only [Bool.false_eq_true, if_false] at hq
  have hkeep := (List.mem_filter.mp hq).2
  rw [keepRow_some hcq] at hkeep
  have : memStr u (enumSet (unresolvedBase col (resolver (candidatesOf col)))) = true :=
    (memStr_iff _ _).mpr hu
  rw [this] at hkeep
  cases hkeep

/-- C2: for every candidate name absent from the resolver mapping (candidate
names are by construction not override-prefixed), no row of the output table
holds that name in the entity column: all occurrences are dropped. -/
theorem claim2_unresolved_rows_dropped (enumSet : List String → List String)
    (resolver : List String → List (String × String)) (t : Table) (col : List String)
    (hv : ValidEnum enumSet) (hc : colStrings t.rows = some col)
    (u : String) (hu : u ∈ candidatesOf col)
    (hnr : alookup u (resolver (candidatesOf col)) = none)
    (out : ResolveResult) (hout : resolveEntities enumSet resolver t = .ok out) :
    ∀ q ∈ out.table.rows, cell0 q ≠ some u := by
  have hbase : u ∈ unresolvedBase col (resolver (candidatesOf col)) :=
    mem_unresolvedBase.mpr ⟨hu, hnr⟩
  have hout2 := hout
  rw [resolveEntities_ok enumSet resolver t col hc] at hout2
  injection hout2 with h
  have huL : u ∈ out.unres := by
    rw [← h]
    exact ((hv _).2 u).mpr hbase
  exact unres_rows_dropped hc hout huL

theorem claim2_witness :
    ("u" ∈ candidatesOf ["u", "ok"]) ∧ cell0 [some "OK"] ≠ some "u" := by
  refine ⟨by decide, ?_⟩
  refine claim2_unresolved_rows_dropped dedupEnum (fun _ => [("ok", "OK")])
    { columns := ["dcid"], rows := [[some "u"], [some "ok"]] } ["u", "ok"]
    validEnum_dedup (by decide) "u" (by decide) (by decide)
    { table := { columns := ["dcid"], rows := [[some "OK"]] },
      pre := [], res := [("ok", "OK")], unres := ["u"],
      audit := { columns := [debugColName, debugColDcid, debugColLink],
                 rows := [[some "u", some unresolvedSentinel, some ""],
                          [some "ok", some "OK", some (dcBrowser ++ "/OK")]] } }
    (by decide) [some "OK"] (by decide)

/-- C9: the unresolved-row drop runs on the rewritten entity column, so a row
whose rewritten identifier (from the resolver mapping or an override prefix)
equals some unresolved candidate name is dropped as well: no output row holds
that value. -/
theorem claim9_rewritten_collision_dropped (enumSet : List String → List String)
    (resolver : List String → List (String × String)) (t : Table) (col : List String)
    (hv : ValidEnum enumSet) (hc : colStrings t.rows = some col)
    (r : List Cell) (hr : r ∈ t.rows) (v w : String) (h0 : cell0 r = some v)
    (horig : (alookup v (resolver (candidatesOf col))).isSome = true ∨ hasMarker v = true)
    (hw : cell0 (rwRow (resolver (candidatesOf col)) (preResolvedOf col) r) = some w)
    (hwu : w ∈ unresolvedBase col (resolver (candidatesOf col)))
    (out : ResolveResult) (hout : resolveEntities enumSet resolver t = .ok out) :
    ∀ q ∈ out.table.rows, cell0 q ≠ some w := by
  have hout2 := hout
  rw [resolveEntities_ok enumSet resolver t col hc] at hout2
  injection hout2 with h
  have hwL : w ∈ out.unres := by
    rw [← h]
    exact ((hv _).2 w).mpr hwu
  exact unres_rows_dropped hc hout hwL

theorem claim9_witness :
    ((alookup "a" [("a", "b"), ("c", "C")]).isSome = true) ∧
    ("b" ∈ unresolvedBase ["a", "b", "c"] [("a", "b"), ("c", "C")]) ∧
    cell0 [some "C"] ≠ some "b" := by
  refine ⟨by decide, by decide, ?_⟩
  refine claim9_rewritten_collision_dropped dedupEnum (fun _ => [("a", "b"), ("c", "C")])
    { columns := ["dcid"], rows := [[some "a"], [some "b"], [some "c"]] } ["a", "b", "c"]
    validEnum_dedup (by decide) [some "a"] (by decide) "a" "b" (by decide)
    (Or.inl (by decide)) (by decide) (by decide)
    { table := { columns := ["dcid"], rows := [[some "C"]] },
      pre := [], res := [("a", "b"), ("c", "C")], unres := ["b"],
      audit := { columns := [debugColName, debugColDcid, debugColLink],
                 rows := [[some "b", some unresolvedSentinel, some ""],
                          [some "a", some "b", some (dcBrowser ++ "/b")],
                          [some "c", some "C", some (dcBrowser ++ "/C")]] } }
    (by decide) [some "C"] (by decide)

/-- C1, counterexample: the resolver maps "a" to "dcid: b", a reference that
also occurs in the input as a pre-resolved entity.  The second replace
rewrites the freshly substituted identifier again, so no output row holds the
mapped canonical identifier "dcid: b": the row that held "a" ends up holding
"b" instead, falsifying the claim that every such row holds the mapped
identifier in the output. -/
theorem claim1_counterexample :
    alookup "a" ((fun (_ : List String) => [("a", "dcid: b")])
      (candidatesOf ["a", "dcid: b"])) = some "dcid: b"
    ∧ cell0 [some "a", some "1"] = some "a"
    ∧ resolveEntities dedupEnum (fun _ => [("a", "dcid: b")])
        { columns := ["dcid", "v"],
          rows := [[some "a", some "1"], [some "dcid: b", some "2"]] } =
      .ok { table := { columns := ["dcid", "v"],
                       rows := [[some "b", some "1"], [some "b", some "2"]] },
            pre := [("dcid: b", "b")], res := [("a", "dcid: b")], unres := [],
            audit := { columns := [debugColName, debugColDcid, debugColLink],
                       rows := [[some "dcid: b", some "b", some (dcBrowser ++ "/b")],
                                [some "a", some "dcid: b",
                                 some (dcBrowser ++ "/dcid: b")]] } }
    ∧ ([[some "b", some "1"], [some "b", some "2"]] : List (List Cell)).all
        (fun q => ! (cell0 q == some "dcid: b")) = true := by
  decide

/-- C1, amended: for a name n mapped to identifier m by the resolver, every
row whose entity column holds n is rewritten to hold exactly m, provided m is
not itself an override-prefixed reference occurring in the input (otherwise
the second, pre-resolved replace rewrites the freshly substituted value
again); whether the rewritten row remains in the output is settled by the
unresolved-row drop, which the source performs by index label (see C9). -/
theorem claim1_amended
    (resolver : List String → List (String × String)) (t : Table) (col : List String)
    (hc : colStrings t.rows = some col)
    (n m : String)
    (hnm : alookup n (resolver (candidatesOf col)) = some m)
    (hm1 : alookup m (preResolvedOf col) = none) :
    ∀ r ∈ t.rows, cell0 r = some n →
      rwRow (resolver (candidatesOf col)) (preResolvedOf col) r = r.set 0 (some m) := by
  intro r hr h0
  obtain ⟨c, rest, rfl⟩ : ∃ c rest, r = c :: rest := by
    cases r with
    | nil => simp [cell0] at h0
    | cons c rest => exact ⟨c, rest, rfl⟩
  obtain rfl : c = some n := by simpa [cell0] using h0
  rw [rwRow_cons]
  simp [replaceVal, hnm, hm1]

theorem claim1_amended_witness :
    (alookup "a" [("a", "A")] = some "A") ∧
    rwRow [("a", "A")] (preResolvedOf ["a"]) [some "a", some "1"]
      = [some "a", some "1"].set 0 (some "A") := by
  refine ⟨by decide, ?_⟩
  exact claim1_amended (fun _ => [("a", "A")])
    { columns := ["dcid", "v"], rows := [[some "a", some "1"]] } ["a"]
    (by decide) "a" "A" (by decide) (by decide)
    [some "a", some "1"] (by decide) (by decide)

/-- C3: an override-prefixed reference is never among the candidate names
sent to the resolver, and any row holding it is rewritten to the
prefix-stripped, whitespace-trimmed identifier, identically under any two
resolvers that map only candidate names. -/
theorem claim3_pre_resolved
    (resolver resolver2 : List String → List (String × String))
    (t : Table) (col : List String) (hc : colStrings t.rows = some col)
    (hk : ∀ kv ∈ resolver (candidatesOf col), kv.1 ∈ candidatesOf col)
    (hk2 : ∀ kv ∈ resolver2 (candidatesOf col), kv.1 ∈ candidatesOf col)
    (p : String) (hp : hasMarker p = true) :
    (p ∉ candidatesOf col) ∧
    ∀ r ∈ t.rows, cell0 r = some p →
      rwRow (resolver (candidatesOf col)) (preResolvedOf col) r =
        r.set 0 (some (stripOverride p)) ∧
      rwRow (resolver2 (candidatesOf col)) (preResolvedOf col) r =
        rwRow (resolver (candidatesOf col)) (preResolvedOf col) r := by
  have hnc : p ∉ candidatesOf col := by
    intro hmem
    have := (mem_candidates.mp hmem).2
    rw [hp] at this
    cases this
  have hlook : ∀ m : List String → List (String × String),
      (∀ kv ∈ m (candidatesOf col), kv.1 ∈ candidatesOf col) →
      alookup p (m (candidatesOf col)) = none := by
    intro m hm
    cases h : alookup p (m (candidatesOf col)) with
    | none => rfl
    | some v => exact absurd (hm (p, v) (alookup_mem h)) hnc
  refine ⟨hnc, ?_⟩
  intro r hr h0
  obtain ⟨c, rest, rfl⟩ : ∃ c rest, r = c :: rest := by
    cases r with
    | nil => simp [cell0] at h0
    | cons c rest => exact ⟨c, rest, rfl⟩
  obtain rfl : c = some p := by simpa [cell0] using h0
  have hcol : p ∈ col := colStrings_mem hc hr (by rfl)
  have hone : ∀ m : List String → List (String × String),
      (∀ kv ∈ m (candidatesOf col), kv.1 ∈ candidatesOf col) →
      rwRow (m (candidatesOf col)) (preResolvedOf col) (some p :: rest)
        = some (stripOverride p) :: rest := by
    intro m hm
    rw [rwRow_cons]
    simp [replaceVal, hlook m hm, preResolved_lookup hp hcol]
  refine ⟨hone resolver hk, ?_⟩
  rw [hone resolver hk, hone resolver2 hk2]

theorem claim3_witness :
    ("dcid: q" ∉ candidatesOf ["dcid: q", "x"]) ∧
    rwRow [] (preResolvedOf ["dcid: q", "x"]) [some "dcid: q", some "1"]
      = [some "dcid: q", some "1"].set 0 (some (stripOverride "dcid: q")) ∧
    rwRow [("x", "X")] (preResolvedOf ["dcid: q", "x"]) [some "dcid: q", some "1"]
      = rwRow [] (preResolvedOf ["dcid: q", "x"]) [some "dcid: q", some "1"] := by
  have h := claim3_pre_resolved (fun _ => []) (fun _ => [("x", "X")])
    { columns := ["dcid", "v"],
      rows := [[some "dcid: q", some "1"], [some "x", some "2"]] }
    ["dcid: q", "x"] (by decide) (by decide) (by decide) "dcid: q" (by decide)
  exact ⟨h.1, (h.2 [some "dcid: q", some "1"] (by decide) (by decide)).1,
         (h.2 [some "dcid: q", some "1"] (by decide) (by decide)).2⟩

theorem zip_self_map (l : List String) (f : String → String) :
    l.zip (l.map f) = l.map (fun a => (a, f a)) := by
  have h := List.zip_map' id f l
  simpa using h

theorem zip_fst_snd (l : List (String × String)) :
    (l.map Prod.fst).zip (l.map Prod.snd) = l := by
  rw [List.zip_map']
  simp

theorem zipRows_eq (names ids : List String) (h : names.length = ids.length) :
    ((names.zip (ids.zip (ids.map debugLink))).map
      (fun p => [some p.1, some p.2.1, some p.2.2])) =
    (names.zip ids).map (fun q => [some q.1, some q.2, some (debugLink q.2)]) := by
  induction names generalizing ids with
  | nil => rfl
  | cons a ns ih =>
    cases ids with
    | nil => simp at h
    | cons b bs =>
      simp only [List.map_cons, List.zip_cons_cons, List.map_cons]
      rw [ih bs (by simpa using h)]

theorem createDebug_rows (unres : List String) (pre res : List (String × String)) :
    (createDebugResolveTable unres pre res).rows =
      unres.map (fun u => [some u, some unresolvedSentinel, some (debugLink unresolvedSentinel)])
      ++ pre.map (fun kv => [some kv.1, some kv.2, some (debugLink kv.2)])
      ++ res.map (fun kv => [some kv.1, some kv.2, some (debugLink kv.2)]) := by
  show ((unres ++ pre.map Prod.fst ++ res.map Prod.fst).zip
      ((unres.map (fun _ => unresolvedSentinel) ++ pre.map Prod.snd ++ res.map Prod.snd).zip
        ((unres.map (fun _ => unresolvedSentinel) ++ pre.map Prod.snd ++ res.map Prod.snd).map
          debugLink))).map (fun p => [some p.1, some p.2.1, some p.2.2]) = _
  rw [zipRows_eq _ _ (by simp)]
  rw [List.zip_append (by simp), List.zip_append (by simp)]
  rw [zip_self_map, zip_fst_snd, zip_fst_snd]
  simp [List.map_append, List.map_map, Function.comp]

/-- C4, counterexample: the browser link of an audit row is computed by
comparing the row's identifier with the sentinel, so a resolver that maps a
candidate to the sentinel string itself yields a resolved audit row with an
empty link instead of the browser link the claim requires. -/
theorem claim4_counterexample :
    resolveEntities dedupEnum (fun _ => [("a", "UNRESOLVED")])
        { columns := ["dcid"], rows := [[some "a"]] } =
      .ok { table := { columns := ["dcid"], rows := [[some "UNRESOLVED"]] },
            pre := [], res := [("a", "UNRESOLVED")], unres := [],
            audit := { columns := [debugColName, debugColDcid, debugColLink],
                       rows := [[some "a", some "UNRESOLVED", some ""]] } }
    ∧ ("" : String) ≠ dcBrowser ++ "/" ++ "UNRESOLVED" := by
  decide

/-- C4, amended: the audit table lists the distinct unresolved names first
(sentinel identifier, empty link), then the distinct pre-resolved entries,
then the distinct resolved entries; a non-unresolved row carries the link
browser-base/identifier unless its identifier equals the sentinel string, in
which case the link is empty; the row count is the sum of the three section
sizes. -/
theorem claim4_audit_structure (enumSet : List String → List String)
    (resolver : List String → List (String × String)) (t : Table) (col : List String)
    (hv : ValidEnum enumSet) (hc : colStrings t.rows = some col)
    (hkn : ((resolver (candidatesOf col)).map Prod.fst).Nodup)
    (out : ResolveResult) (hout : resolveEntities enumSet resolver t = .ok out) :
    (out.audit.rows =
      out.unres.map (fun u => [some u, some unresolvedSentinel, some ""])
      ++ out.pre.map (fun kv => [some kv.1, some kv.2,
           some (if kv.2 = unresolvedSentinel then "" else dcBrowser ++ "/" ++ kv.2)])
      ++ out.res.map (fun kv => [some kv.1, some kv.2,
           some (if kv.2 = unresolvedSentinel then "" else dcBrowser ++ "/" ++ kv.2)]))
    ∧ out.audit.rows.length = out.unres.length + out.pre.length + out.res.length
    ∧ out.unres.Nodup ∧ (out.pre.map Prod.fst).Nodup ∧ (out.res.map Prod.fst).Nodup := by
  rw [resolveEntities_ok enumSet resolver t col hc] at hout
  injection hout with h
  subst h
  dsimp only
  refine ⟨?_, ?_, (hv _).1, preResolved_keys_nodup col, hkn⟩
  · rw [createDebug_rows]
    simp [debugLink]
  · rw [createDebug_rows]
    simp only [List.length_append, List.length_map]

theorem claim4_witness :
    ({ columns := [debugColName, debugColDcid, debugColLink],
       rows := [[some "u", some unresolvedSentinel, some ""],
                [some "dcid:X", some "X", some (dcBrowser ++ "/X")],
                [some "e1", some "E1", some (dcBrowser ++ "/E1")]] } : Table).rows.length
      = (["u"] : List String).length + ([("dcid:X", "X")] : List (String × String)).length
        + ([("e1", "E1")] : List (String × String)).length
    ∧ (["u"] : List String).Nodup := by
  have h := claim4_audit_structure dedupEnum (fun _ => [("e1", "E1")])
    { columns := ["dcid"], rows := [[some "e1"], [some "u"], [some "dcid:X"]] }
    ["e1", "u", "dcid:X"] validEnum_dedup (by decide) (by decide)
    { table := { columns := ["dcid"], rows := [[some "E1"], [some "X"]] },
      pre := [("dcid:X", "X")], res := [("e1", "E1")], unres := ["u"],
      audit := { columns := [debugColName, debugColDcid, debugColLink],
                 rows := [[some "u", some unresolvedSentinel, some ""],
                          [some "dcid:X", some "X", some (dcBrowser ++ "/X")],
                          [some "e1", some "E1", some (dcBrowser ++ "/E1")]] } }
    (by decide)
  exact ⟨h.2.1, h.2.2.1⟩

theorem memStr_congr {l1 l2 : List String} (h : ∀ s : String, s ∈ l1 ↔ s ∈ l2)
    (s : String) : memStr s l1 = memStr s l2 := by
  cases hm : memStr s l2 with
  | true => exact (memStr_iff _ _).mpr ((h s).mpr ((memStr_iff _ _).mp hm))
  | false =>
    cases hm1 : memStr s l1 with
    | false => rfl
    | true =>
      have hmem := (h s).mp ((memStr_iff _ _).mp hm1)
      rw [(memStr_iff _ _).mpr hmem] at hm
      cases hm

theorem keepRow_congr {l1 l2 : List String} (h : ∀ s : String, s ∈ l1 ↔ s ∈ l2)
    (r : List Cell) : keepRow l1 r = keepRow l2 r := by
  unfold keepRow
  cases cell0 r with
  | none => rfl
  | some s =>
    show (! memStr s l1) = (! memStr s l2)
    rw [memStr_congr h s]

theorem isEmpty_congr {l1 l2 : List String} (h : ∀ s : String, s ∈ l1 ↔ s ∈ l2) :
    l1.isEmpty = l2.isEmpty := by
  have hn : l1 = [] ↔ l2 = [] := by
    rw [List.eq_nil_iff_forall_not_mem, List.eq_nil_iff_forall_not_mem]
    constructor
    · intro h1 a ha
      exact h1 a ((h a).mpr ha)
    · intro h2 a ha
      exact h2 a ((h a).mp ha)
  cases b2 : l2.isEmpty with
  | true =>
    rw [List.isEmpty_iff] at b2
    rw [List.isEmpty_iff]
    exact hn.mpr b2
  | false =>
    cases b1 : l1.isEmpty with
    | false => rfl
    | true =>
      rw [List.isEmpty_iff] at b1
      rw [hn.mp b1] at b2
      simp at b2

theorem resolveRows_enum_eq {e1 e2 : List String → List String}
    (hv1 : ValidEnum e1) (hv2 : ValidEnum e2) (base : List String)
    (M : List (List Cell)) :
    (if (e1 base).isEmpty then M else M.filter (keepRow (e1 base))) =
    (if (e2 base).isEmpty then M else M.filter (keepRow (e2 base))) := by
  have hmem : ∀ s : String, s ∈ e1 base ↔ s ∈ e2 base :=
    fun s => ((hv1 base).2 s).trans ((hv2 base).2 s).symm
  have hemp : (e1 base).isEmpty = (e2 base).isEmpty := isEmpty_congr hmem
  by_cases hE : (e1 base).isEmpty = true
  · rw [if_pos hE, if_pos (hemp ▸ hE)]
  · rw [if_neg hE, if_neg (fun hh => hE (hemp ▸ hh))]
    exact List.filter_congr (fun r _ => keepRow_congr hmem r)

/-- C10, counterexample: the unresolved set is turned into a list in the
implementation-defined enumeration order of a Python set, which is not fixed
across interpreter runs; two valid enumeration orders of the same unresolved
set produce audit tables with differently ordered unresolved sections on the
same input, configuration, and resolver mapping. -/
theorem claim10_counterexample :
    ValidEnum dedupEnum ∧ ValidEnum revDedupEnum ∧
    resolveEntities dedupEnum (fun _ => [])
        { columns := ["dcid"], rows := [[some "a"], [some "b"]] } =
      .ok { table := { columns := ["dcid"], rows := [] },
            pre := [], res := [], unres := ["a", "b"],
            audit := { columns := [debugColName, debugColDcid, debugColLink],
                       rows := [[some "a", some unresolvedSentinel, some ""],
                                [some "b", some unresolvedSentinel, some ""]] } } ∧
    resolveEntities revDedupEnum (fun _ => [])
        { columns := ["dcid"], rows := [[some "a"], [some "b"]] } =
      .ok { table := { columns := ["dcid"], rows := [] },
            pre := [], res := [], unres := ["b", "a"],
            audit := { columns := [debugColName, debugColDcid, debugColLink],
                       rows := [[some "b", some unresolvedSentinel, some ""],
                                [some "a", some unresolvedSentinel, some ""]] } } ∧
    ([[some "a", some unresolvedSentinel, some ""],
      [some "b", some unresolvedSentinel, some ""]] : List (List Cell)) ≠
      [[some "b", some unresolvedSentinel, some ""],
       [some "a", some unresolvedSentinel, some ""]] :=
  ⟨validEnum_dedup, validEnum_revDedup, by decide, by decide, by decide⟩

/-- C10, amended: on the same input table, configuration and resolver mapping,
two runs produce the same observations table whatever valid set-enumeration
order each uses, and audit tables that agree up to a permutation (the
unresolved section is some enumeration of the same set; pre-resolved and
resolved sections are identical). -/
theorem claim10_deterministic_up_to_unres_order (unpivot : Bool)
    (ignore : List String) (e1 e2 : List String → List String)
    (resolver : List String → List (String × String)) (t : Table)
    (hv1 : ValidEnum e1) (hv2 : ValidEnum e2) (p1 p2 : Table × Table)
    (h1 : runStages unpivot ignore e1 resolver t = .ok p1)
    (h2 : runStages unpivot ignore e2 resolver t = .ok p2) :
    p1.1 = p2.1 ∧ p1.2.rows.Perm p2.2.rows := by
  cases hd : dropIgnoredColumns ignore t with
  | error e =>
    rw [runStages, hd] at h1
    cases h1
  | ok t1 =>
    rw [runStages, hd] at h1
    rw [runStages, hd] at h2
    dsimp only at h1 h2
    cases hcol : colStrings (renameColumns unpivot t1).rows with
    | none =>
      have herr : resolveEntities e1 resolver (renameColumns unpivot t1) =
          .error "entity column holds a non-string value" := by
        unfold resolveEntities
        rw [hcol]
      rw [herr] at h1
      cases h1
    | some col =>
      rw [resolveEntities_ok e1 resolver _ col hcol] at h1
      rw [resolveEntities_ok e2 resolver _ col hcol] at h2
      dsimp only at h1 h2
      injection h1 with h1
      injection h2 with h2
      subst h1
      subst h2
      have hmem : ∀ s : String,
          s ∈ e1 (unresolvedBase col (resolver (candidatesOf col))) ↔
          s ∈ e2 (unresolvedBase col (resolver (candidatesOf col))) :=
        fun s => ((hv1 _).2 s).trans ((hv2 _).2 s).symm
      have htbl :
          ({ columns := (renameColumns unpivot t1).columns,
             rows := if (e1 (unresolvedBase col (resolver (candidatesOf col)))).isEmpty then
                 (renameColumns unpivot t1).rows.map
                   (rwRow (resolver (candidatesOf col)) (preResolvedOf col))
               else
                 ((renameColumns unpivot t1).rows.map
                   (rwRow (resolver (candidatesOf col)) (preResolvedOf col))).filter
                   (keepRow (e1 (unresolvedBase col (resolver (candidatesOf col))))) } : Table) =
          { columns := (renameColumns unpivot t1).columns,
            rows := if (e2 (unresolvedBase col (resolver (candidatesOf col)))).isEmpty then
                (renameColumns unpivot t1).rows.map
                  (rwRow (resolver (candidatesOf col)) (preResolvedOf col))
              else
                ((renameColumns unpivot t1).rows.map
                  (rwRow (resolver (candidatesOf col)) (preResolvedOf col))).filter
                  (keepRow (e2 (unresolvedBase col (resolver (candidatesOf col))))) } := by
        rw [resolveRows_enum_eq hv1 hv2]
      refine ⟨?_, ?_⟩
      · dsimp only
        rw [htbl]
      · dsimp only
        rw [createDebug_rows, createDebug_rows]
        have hperm : (e1 (unresolvedBase col (resolver (candidatesOf col)))).Perm
            (e2 (unresolvedBase col (resolver (candidatesOf col)))) :=
          (List.perm_ext_iff_of_nodup (hv1 _).1 (hv2 _).1).mpr hmem
        exact List.Perm.append
          (List.Perm.append (hperm.map _) (List.Perm.refl _)) (List.Perm.refl _)

theorem claim10_amended_witness :
    ({ columns := ["dcid"], rows := [] } : Table) = { columns := ["dcid"], rows := [] }
    ∧ ([[some "a", some unresolvedSentinel, some ""],
        [some "b", some unresolvedSentinel, some ""]] : List (List Cell)).Perm
       [[some "b", some unresolvedSentinel, some ""],
        [some "a", some unresolvedSentinel, some ""]] := by
  have h := claim10_deterministic_up_to_unres_order false [] dedupEnum revDedupEnum
    (fun _ => []) { columns := ["dcid"], rows := [[some "a"], [some "b"]] }
    validEnum_dedup validEnum_revDedup
    ({ columns := ["dcid"], rows := [] },
     { columns := [debugColName, debugColDcid, debugColLink],
       rows := [[some "a", some unresolvedSentinel, some ""],
                [some "b", some unresolvedSentinel, some ""]] })
    ({ columns := ["dcid"], rows := [] },
     { columns := [debugColName, debugColDcid, debugColLink],
       rows := [[some "b", some unresolvedSentinel, some ""],
                [some "a", some unresolvedSentinel, some ""]] })
    (by decide) (by decide)
  exact h

/-- C5: the spec scenario.  On rows [e1 10], [e2 20], [dcid:X 30] with
columns [name, val], reshape disabled, and any resolver that answers
\x7b e1 : E1 \x7d on the candidate list [e1, e2], the pipeline outputs exactly
the rows E1 10 and X 30 (the e2 row is dropped) and the audit table holds the
rows (e2, sentinel, empty), (dcid:X, X, browser/X), (e1, E1, browser/E1) in
that order. -/
theorem claim5_scenario (enumSet : List String → List String)
    (resolver : List String → List (String × String))
    (hv : ValidEnum enumSet)
    (hres : resolver ["e1", "e2"] = [("e1", "E1")]) :
    runStages false [] enumSet resolver
      { columns := ["name", "val"],
        rows := [[some "e1", some "10"], [some "e2", some "20"],
                 [some "dcid:X", some "30"]] } =
    .ok ({ columns := ["dcid", "val"],
           rows := [[some "E1", some "10"], [some "X", some "30"]] },
         { columns := [debugColName, debugColDcid, debugColLink],
           rows := [[some "e2", some unresolvedSentinel, some ""],
                    [some "dcid:X", some "X", some (dcBrowser ++ "/X")],
                    [some "e1", some "E1", some (dcBrowser ++ "/E1")]] }) := by
  have hdrop : dropIgnoredColumns []
      { columns := ["name", "val"],
        rows := [[some "e1", some "10"], [some "e2", some "20"],
                 [some "dcid:X", some "30"]] } =
      .ok { columns := ["name", "val"],
            rows := [[some "e1", some "10"], [some "e2", some "20"],
                     [some "dcid:X", some "30"]] } := rfl
  rw [runStages, hdrop]
  dsimp only
  rw [resolveEntities_ok enumSet resolver _ ["e1", "e2", "dcid:X"] (by rfl)]
  dsimp only
  rw [show candidatesOf ["e1", "e2", "dcid:X"] = ["e1", "e2"] from by decide]
  rw [hres]
  rw [show unresolvedBase ["e1", "e2", "dcid:X"] [("e1", "E1")] = ["e2"] from by decide]
  rw [validEnum_singleton hv "e2"]
  decide

theorem claim5_witness :
    runStages false [] dedupEnum
      (fun es => if es = ["e1", "e2"] then [("e1", "E1")] else [])
      { columns := ["name", "val"],
        rows := [[some "e1", some "10"], [some "e2", some "20"],
                 [some "dcid:X", some "30"]] } =
    .ok ({ columns := ["dcid", "val"],
           rows := [[some "E1", some "10"], [some "X", some "30"]] },
         { columns := [debugColName, debugColDcid, debugColLink],
           rows := [[some "e2", some unresolvedSentinel, some ""],
                    [some "dcid:X", some "X", some (dcBrowser ++ "/X")],
                    [some "e1", some "E1", some (dcBrowser ++ "/E1")]] }) :=
  claim5_scenario dedupEnum _ validEnum_dedup (by decide)

/-- C7: dropping ignored columns fails exactly when some requested name is
absent (and then the whole import aborts with no file written); when all
requested names exist, exactly the requested columns are removed and the
remaining columns and cells are unchanged, in order. -/
theorem claim7_drop_ignored (ignore : List String) (t : Table)
    (hshape : ∀ r ∈ t.rows, r.length = t.columns.length) :
    ((∃ c ∈ ignore, c ∉ t.columns) →
      isErr (dropIgnoredColumns ignore t) = true ∧
      ∀ (unpivot : Bool) (enumSet : List String → List String)
        (resolver : List String → List (String × String)) (writeOk : String → Bool),
        (doImport unpivot ignore enumSet resolver writeOk t).1 = [] ∧
        isErr (doImport unpivot ignore enumSet resolver writeOk t).2 = true) ∧
    ((∀ c ∈ ignore, c ∈ t.columns) →
      dropIgnoredColumns ignore t =
        .ok { columns := t.columns.filter (fun c => ! memStr c ignore),
              rows := t.rows.map (dropColsRow t.columns ignore) }) := by
  constructor
  · rintro ⟨c, hc, hnc⟩
    have hig : ¬ ignore.isEmpty = true := by
      intro hemp
      rw [List.isEmpty_iff] at hemp
      rw [hemp] at hc
      cases hc
    have hall : ¬ ignore.all (fun x => memStr x t.columns) = true := by
      intro hall
      exact hnc ((memStr_iff _ _).mp (List.all_eq_true.mp hall c hc))
    have herr : dropIgnoredColumns ignore t = .error "ignored column not found" := by
      unfold dropIgnoredColumns
      rw [if_neg hig, if_neg hall]
    refine ⟨by rw [herr]; rfl, ?_⟩
    intro unpivot enumSet resolver writeOk
    have hrun : runStages unpivot ignore enumSet resolver t =
        .error "ignored column not found" := by
      rw [runStages, herr]
    unfold doImport
    rw [hrun]
    exact ⟨rfl, rfl⟩
  · intro hall
    by_cases hig : ignore.isEmpty = true
    · rw [List.isEmpty_iff] at hig
      subst hig
      have hcols : t.columns.filter (fun c => ! memStr c []) = t.columns :=
        List.filter_eq_self.mpr (fun a _ => rfl)
      have hrows : t.rows.map (dropColsRow t.columns []) = t.rows := by
        have hmc : ∀ r ∈ t.rows, dropColsRow t.columns [] r = id r := by
          intro r hr
          unfold dropColsRow
          have hfe : List.filter (fun p : String × Cell => ! memStr p.1 [])
              (t.columns.zip r) = t.columns.zip r :=
            List.filter_eq_self.mpr (fun p _ => rfl)
          rw [hfe]
          exact List.map_snd_zip _ _ (le_of_eq (hshape r hr))
        rw [List.map_congr_left hmc, List.map_id]
      show Except.ok t = _
      rw [show ({ columns := t.columns.filter (fun c => ! memStr c []),
                  rows := t.rows.map (dropColsRow t.columns []) } : Table) = t from by
        rw [hcols, hrows]]
    · have hall2 : ignore.all (fun x => memStr x t.columns) = true :=
        List.all_eq_true.mpr (fun x hx => (memStr_iff _ _).mpr (hall x hx))
      unfold dropIgnoredColumns
      rw [if_neg hig, if_pos hall2]

theorem claim7_witness :
    (isErr (dropIgnoredColumns ["z"]
      { columns := ["x", "y"], rows := [[some "1", some "2"]] }) = true)
    ∧ (doImport false ["z"] dedupEnum (fun _ => []) (fun _ => true)
        { columns := ["x", "y"], rows := [[some "1", some "2"]] }).1 = []
    ∧ dropIgnoredColumns ["x"] { columns := ["x", "y"], rows := [[some "1", some "2"]] } =
        .ok { columns := ["y"], rows := [[some "2"]] } := by
  have h1 := (claim7_drop_ignored ["z"]
    { columns := ["x", "y"], rows := [[some "1", some "2"]] } (by decide)).1
    ⟨"z", by decide, by decide⟩
  have h2 := (claim7_drop_ignored ["x"]
    { columns := ["x", "y"], rows := [[some "1", some "2"]] } (by decide)).2
    (by decide)
  refine ⟨h1.1, (h1.2 false dedupEnum (fun _ => []) (fun _ => true)).1, ?_⟩
  rw [h2]
  decide

theorem enumFrom_snd_mem {l : List String} :
    ∀ {n : Nat} {p : Nat × String}, p ∈ List.enumFrom n l → p.2 ∈ l := by
  induction l with
  | nil =>
    intro n p hp
    cases hp
  | cons a l ih =>
    intro n p hp
    rcases List.mem_cons.mp hp with rfl | h2
    · exact List.mem_cons_self _ _
    · exact List.mem_cons_of_mem _ (ih h2)

/-- C6: with reshaping enabled, the final table has the columns
[dcid, variable, date, value] in that order, and its rows are exactly one row
per (variable column, input row) pair whose cell is present, carrying the
row's entity identifier, the column's name, the row's date and the cell
value; pairs with a missing cell contribute nothing. -/
theorem claim6_unpivot (t : Table) (vcs : List String)
    (hcols : t.columns = columnDcid :: columnDate :: vcs)
    (hvcs : ∀ c ∈ vcs, c ≠ columnDcid ∧ c ≠ columnDate)
    (hrows : ∀ r ∈ t.rows, ∃ e d cs, r = some e :: some d :: cs) :
    (reorderColumns (unpivotVariables t)).columns =
      [columnDcid, columnVariable, columnDate, columnValue] ∧
    (reorderColumns (unpivotVariables t)).rows =
      ((List.enumFrom 2 vcs).map (fun p =>
        (t.rows.filter (fun r => (r.getD p.1 none).isSome)).map
          (fun r => [r.getD 0 none, some p.2, r.getD 1 none, r.getD p.1 none]))).flatten := by
  obtain ⟨cols, rows⟩ := t
  dsimp only at hcols hrows ⊢
  subst hcols
  refine ⟨rfl, ?_⟩
  have hfa : (List.enumFrom 2 vcs).filter
      (fun p => ! memStr p.2 [columnDcid, columnDate]) = List.enumFrom 2 vcs := by
    refine List.filter_eq_self.mpr ?_
    intro p hp
    obtain ⟨h1, h2⟩ := hvcs p.2 (enumFrom_snd_mem hp)
    have hm : memStr p.2 [columnDcid, columnDate] = false := by
      simp [memStr, Ne.symm h1, Ne.symm h2]
    rw [hm]
    rfl
  show List.map (fun r4 : List Cell =>
      [r4.getD 0 none, r4.getD 2 none, r4.getD 1 none, r4.getD 3 none])
    (List.filter (fun r => r.all (fun c => c.isSome))
      (((List.enumFrom 2 vcs).filter
          (fun p => ! memStr p.2 [columnDcid, columnDate])).map
        (fun p => rows.map
          (fun r => [r.getD 0 none, r.getD 1 none, some p.2, r.getD p.1 none]))).flatten) = _
  rw [hfa, List.filter_flatten, List.map_flatten, List.map_map, List.map_map]
  refine congrArg List.flatten (List.map_congr_left ?_)
  intro p hp
  dsimp only [Function.comp]
  rw [List.filter_map]
  rw [List.map_map]
  have hfc : List.filter
      ((fun r : List Cell => r.all (fun c => c.isSome)) ∘
        (fun r : List Cell => [r.getD 0 none, r.getD 1 none, some p.2, r.getD p.1 none]))
      rows = List.filter (fun r => (r.getD p.1 none).isSome) rows := by
    refine List.filter_congr ?_
    intro r hr
    obtain ⟨e, d, cs, rfl⟩ := hrows r hr
    simp [Function.comp]
  rw [hfc]
  rfl

theorem claim6_witness :
    (reorderColumns (unpivotVariables
      { columns := [columnDcid, columnDate, "v1", "v2"],
        rows := [[some "E", some "2020", some "1", none],
                 [some "F", some "2021", none, some "2"]] })).columns =
      [columnDcid, columnVariable, columnDate, columnValue] ∧
    (reorderColumns (unpivotVariables
      { columns := [columnDcid, columnDate, "v1", "v2"],
        rows := [[some "E", some "2020", some "1", none],
                 [some "F", some "2021", none, some "2"]] })).rows =
      ((List.enumFrom 2 ["v1", "v2"]).map (fun p =>
        (({ columns := [columnDcid, columnDate, "v1", "v2"],
            rows := [[some "E", some "2020", some "1", none],
                     [some "F", some "2021", none, some "2"]] } : Table).rows.filter
          (fun r => (r.getD p.1 none).isSome)).map
          (fun r => [r.getD 0 none, some p.2, r.getD 1 none, r.getD p.1 none]))).flatten :=
  claim6_unpivot
    { columns := [columnDcid, columnDate, "v1", "v2"],
      rows := [[some "E", some "2020", some "1", none],
               [some "F", some "2021", none, some "2"]] }
    ["v1", "v2"] rfl (by decide)
    (by
      intro r hr
      rcases List.mem_cons.mp hr with rfl | hr2
      · exact ⟨"E", "2020", [some "1", none], rfl⟩
      · rcases List.mem_cons.mp hr2 with rfl | hr3
        · exact ⟨"F", "2021", [none, some "2"], rfl⟩
        · cases hr3)

/-- C8, counterexample: _write_csvs writes the observations file first and the
debug-resolve file second, so a run whose debug-resolve write fails aborts
after the observations file has already been written: the run neither
completes with both files nor aborts with no file written. -/
theorem claim8_counterexample :
    doImport false [] dedupEnum (fun _ => [("a", "A")])
      (fun f => f == observationsFileName)
      { columns := ["c0"], rows := [[some "a"]] } =
    ([observationsFileName], .error "could not write debug-resolve file")
    ∧ ([observationsFileName] : List String) ≠ []
    ∧ ([observationsFileName] : List String) ≠
        [observationsFileName, debugResolveFileName] := by
  decide

/-- C8, amended: a run that completes has written both output files; a run
that aborts has written either nothing (error before or at the observations
write) or only the observations file (debug-resolve write failure).  No
other partial state is possible. -/
theorem claim8_no_partial_success (unpivot : Bool) (ignore : List String)
    (enumSet : List String → List String)
    (resolver : List String → List (String × String))
    (writeOk : String → Bool) (t : Table) :
    ((doImport unpivot ignore enumSet resolver writeOk t).2 = .ok () →
      (doImport unpivot ignore enumSet resolver writeOk t).1 =
        [observationsFileName, debugResolveFileName]) ∧
    (isErr (doImport unpivot ignore enumSet resolver writeOk t).2 = true →
      (doImport unpivot ignore enumSet resolver writeOk t).1 = [] ∨
      (doImport unpivot ignore enumSet resolver writeOk t).1 = [observationsFileName]) := by
  unfold doImport
  cases hrun : runStages unpivot ignore enumSet resolver t with
  | error e =>
    dsimp only
    exact ⟨(fun h => nomatch h), fun _ => Or.inl rfl⟩
  | ok pair =>
    dsimp only
    by_cases w1 : writeOk observationsFileName = true
    · rw [if_pos w1]
      by_cases w2 : writeOk debugResolveFileName = true
      · rw [if_pos w2]
        exact ⟨fun _ => rfl, fun h => nomatch h⟩
      · rw [if_neg w2]
        exact ⟨(fun h => nomatch h), fun _ => Or.inr rfl⟩
    · rw [if_neg w1]
      exact ⟨(fun h => nomatch h), fun _ => Or.inl rfl⟩

theorem claim8_witness :
    ([observationsFileName] : List String) = [] ∨
    ([observationsFileName] : List String) = [observationsFileName] :=
  (claim8_no_partial_success false [] dedupEnum (fun _ => [("a", "A")])
      (fun f => f == observationsFileName)
      { columns := ["c0"], rows := [[some "a"]] }).2 (by decide)
